/-
Verification of the HouseCheckingApp industrial inspection pipeline.

Shallow embedding of the Python sources:
  * `src/config.py`                      → namespace `Config`
  * `src/image_processing/detection.py`  → `detect_part_presence`, `detect_holes`,
                                           `detect_spatter`, `calculate_seam_lengths`
  * `src/main.py` (class `Inspector`)    → `analyze`, `process_and_save`,
                                           `capture_and_process`, `save_to_csv`
  * `src/utils/file_utils.py`            → `get_next_filename`

Images are abstracted by the features the OpenCV routines extract from them:
the pixel list (used only for the mean-intensity part-presence test), the list
of holes the Hough-circle transform returns, and the spatter-blob count from
the contour analysis.  The Hough transform and the contour extraction
themselves are opaque native routines; the rest of the pipeline only ever
consumes their outputs, which is what the `GrayImage` record carries.
-/
import Mathlib

set_option maxHeartbeats 1000000

/-- A detected hole: `((x, y), width, height)` in `detection.py`.
Centers are integer pixel coordinates (`int(x), int(y)`); width and height
are the float diameters (`2 * r`), modelled as rationals. -/
structure Hole where
  center : ℤ × ℤ
  width : ℚ
  height : ℚ
deriving DecidableEq, Repr

instance : Inhabited Hole := ⟨⟨(0, 0), 0, 0⟩⟩

-- Configuration constants from `src/config.py`.
namespace Config

/-- Threshold `PART_DETECTION_THRESHOLD = 240.0` — mean pixel value. -/
def PART_DETECTION_THRESHOLD : ℚ := 240

/-- Constant `EXPECTED_HOLE_COUNT = 4`. -/
def EXPECTED_HOLE_COUNT : ℕ := 4

/-- Constant `MAX_SPATTER_COUNT = 5`. -/
def MAX_SPATTER_COUNT : ℕ := 5

end Config

/-- A grayscale frame, abstracted by the features the OpenCV routines extract
from it: its pixels (for the mean-based presence test), the holes the
Hough-circle pipeline of `detect_holes` finds in it, and the spatter-blob
count the contour analysis of `detect_spatter` yields on it. -/
structure GrayImage where
  pixels : List ℕ
  houghHoles : List Hole
  spatterBlobs : ℕ
deriving DecidableEq

/-- The numpy mean `gray.mean()`: arithmetic mean of all pixel intensities. -/
def meanIntensity (pixels : List ℕ) : ℚ :=
  (pixels.sum : ℚ) / (pixels.length : ℚ)

/-- Embeds `detection.py::detect_part_presence`: returns `mean_val < mean_threshold`. -/
def detect_part_presence (gray : GrayImage) (mean_threshold : ℚ) : Bool :=
  decide (meanIntensity gray.pixels < mean_threshold)

/-- Embeds `detection.py::detect_holes`: the Hough-circle transform, an opaque native
routine; the frame abstraction carries its output directly. -/
def detect_holes (gray : GrayImage) : List Hole :=
  gray.houghHoles

/-- Embeds `detection.py::detect_spatter`: threshold + morphology + contour counting,
an opaque native routine; the frame abstraction carries its output directly. -/
def detect_spatter (gray : GrayImage) : ℕ :=
  gray.spatterBlobs

/-- Embeds `np.hypot(p2[0] - p1[0], p2[1] - p1[1])`: Euclidean distance between two
integer pixel centers. -/
noncomputable def distance (p1 p2 : ℤ × ℤ) : ℝ :=
  Real.sqrt (((p2.1 - p1.1 : ℤ) : ℝ) ^ 2 + ((p2.2 - p1.2 : ℤ) : ℝ) ^ 2)

/-- Comparison key of `sorted(holes, key=lambda h: h[0][1])` (ascending y). -/
def byY (a b : Hole) : Prop := a.center.2 ≤ b.center.2

/-- Comparison key of `sorted(holes, key=lambda h: h[0][0])` (ascending x). -/
def byX (a b : Hole) : Prop := a.center.1 ≤ b.center.1

instance : DecidableRel byY := fun _ _ => inferInstanceAs (Decidable (_ ≤ _))

instance : DecidableRel byX := fun _ _ => inferInstanceAs (Decidable (_ ≤ _))

/-- Embeds `detection.py::calculate_seam_lengths`.  The Python `sorted` builtin is a stable
ascending sort, modelled by `List.insertionSort` with a `≤` key comparison;
`holes_by_y[:2]` / `holes_by_y[2:4]` are `take 2` / `(drop 2).take 2`.  The
indexings `top_row[0]`, `top_row[1]`, `bottom_row[0]`, `bottom_row[1]` are
total because the rows have exactly two elements whenever the guard
`len(holes) >= 4` passes; the unreachable fallback returns zeros. -/
noncomputable def calculate_seam_lengths (holes : List Hole) : ℝ × ℝ × ℝ × ℝ :=
  if holes.length < 4 then (0, 0, 0, 0)
  else
    let holes_by_y := List.insertionSort byY holes
    let top_row := List.insertionSort byX (holes_by_y.take 2)
    let bottom_row := List.insertionSort byX ((holes_by_y.drop 2).take 2)
    match top_row, bottom_row with
    | [tl, tr], [bl, br] =>
      let rad_top_left := (tl.width : ℝ) / 2
      let rad_top_right := (tr.width : ℝ) / 2
      let rad_bot_left := (bl.width : ℝ) / 2
      let rad_bot_right := (br.width : ℝ) / 2
      (distance tl.center tr.center - (rad_top_left + rad_top_right),
       distance bl.center br.center - (rad_bot_left + rad_bot_right),
       distance tl.center bl.center - (rad_top_left + rad_bot_left),
       distance tr.center br.center - (rad_top_right + rad_bot_right))
    | _, _ => (0, 0, 0, 0)

/-- Little-endian base-10 digits with explicit fuel (structural recursion, so
that the definition evaluates by kernel reduction). -/
def natDigitsAux : ℕ → ℕ → List ℕ
  | 0, _ => []
  | _ + 1, 0 => []
  | fuel + 1, n + 1 => (n + 1) % 10 :: natDigitsAux fuel ((n + 1) / 10)

/-- Decimal rendering of a natural number, modelling the Python `str(n)` /
f-string interpolation of integers. -/
def natRepr (n : ℕ) : String :=
  if n = 0 then "0" else String.mk ((natDigitsAux n n).reverse.map Nat.digitChar)

lemma natDigitsAux_eq_digits (fuel : ℕ) : ∀ n : ℕ, n ≤ fuel →
    natDigitsAux fuel n = Nat.digits 10 n := by
  induction fuel with
  | zero =>
    intro n hn
    interval_cases n
    simp [natDigitsAux]
  | succ f ih =>
    intro n hn
    cases n with
    | zero => simp [natDigitsAux]
    | succ m =>
      have hdiv : (m + 1) / 10 < m + 1 := Nat.div_lt_self (by omega) (by omega)
      rw [natDigitsAux, ih ((m + 1) / 10) (by omega),
        Nat.digits_def' (by norm_num : (1 : ℕ) < 10) (by omega : 0 < m + 1)]

lemma natRepr_eq_digits (n : ℕ) : natRepr n
    = if n = 0 then "0" else String.mk ((Nat.digits 10 n).reverse.map Nat.digitChar) := by
  unfold natRepr
  by_cases h : n = 0
  · simp [h]
  · simp [h, natDigitsAux_eq_digits n n le_rfl]

lemma digitChar_inj {a b : ℕ} (ha : a < 10) (hb : b < 10)
    (h : Nat.digitChar a = Nat.digitChar b) : a = b := by
  interval_cases a <;> interval_cases b <;> first | rfl | exact absurd h (by decide)

lemma map_digitChar_inj : ∀ {l1 l2 : List ℕ}, (∀ d ∈ l1, d < 10) → (∀ d ∈ l2, d < 10) →
    l1.map Nat.digitChar = l2.map Nat.digitChar → l1 = l2
  | [], [], _, _, _ => rfl
  | [], _ :: _, _, _, h => by simp at h
  | _ :: _, [], _, _, h => by simp at h
  | a :: l1, b :: l2, h1, h2, h => by
    simp only [List.map_cons, List.cons.injEq] at h
    have hd := digitChar_inj (h1 a (by simp)) (h2 b (by simp)) h.1
    have ht := map_digitChar_inj (fun d hd => h1 d (by simp [hd]))
      (fun d hd => h2 d (by simp [hd])) h.2
    rw [hd, ht]

lemma natRepr_injective : Function.Injective natRepr := by
  intro m n h
  rw [natRepr_eq_digits, natRepr_eq_digits] at h
  have digits_of_mk : ∀ k : ℕ, k ≠ 0 →
      String.mk ((Nat.digits 10 k).reverse.map Nat.digitChar) = "0" → False := by
    intro k hk hmk
    have hdata : (Nat.digits 10 k).reverse.map Nat.digitChar = ['0'] := by
      have := congrArg String.data hmk
      simpa using this
    have hrev : (Nat.digits 10 k).reverse = [0] := by
      apply map_digitChar_inj _ _ (by simpa using hdata)
      · intro d hd
        exact Nat.digits_lt_base (by norm_num) (by simpa using hd)
      · intro d hd
        simp at hd
        omega
    have hdig : Nat.digits 10 k = [0] := by
      have := congrArg List.reverse hrev
      simpa using this
    have := Nat.ofDigits_digits 10 k
    rw [hdig] at this
    simp [Nat.ofDigits] at this
    exact hk this.symm
  by_cases hm : m = 0 <;> by_cases hn : n = 0
  · rw [hm, hn]
  · simp only [hm, if_pos, if_neg hn] at h
    exact absurd (h.symm) (fun hc => digits_of_mk n hn hc)
  · simp only [hn, if_pos, if_neg hm] at h
    exact absurd h (fun hc => digits_of_mk m hm hc)
  · simp only [if_neg hm, if_neg hn] at h
    have hdata : (Nat.digits 10 m).reverse.map Nat.digitChar
        = (Nat.digits 10 n).reverse.map Nat.digitChar := congrArg String.data h
    have hrev := map_digitChar_inj
      (fun d hd => Nat.digits_lt_base (by norm_num) (by simpa using hd))
      (fun d hd => Nat.digits_lt_base (by norm_num) (by simpa using hd)) hdata
    have hdig : Nat.digits 10 m = Nat.digits 10 n := by
      have := congrArg List.reverse hrev
      simpa using this
    calc m = Nat.ofDigits 10 (Nat.digits 10 m) := (Nat.ofDigits_digits 10 m).symm
    _ = Nat.ofDigits 10 (Nat.digits 10 n) := by rw [hdig]
    _ = n := Nat.ofDigits_digits 10 n

/-- The stem (`os.path.splitext(base_name)[0]`) of the base image file name
`f"{status}_{order_number}_{part_number}Count{counter}_CAM{cam_id}.jpg"` from
`file_utils.py::get_next_filename`. -/
def baseStem (status order_number part_number : String) (counter cam_id : ℕ) : String :=
  status ++ "_" ++ order_number ++ "_" ++ part_number ++ "Count" ++ natRepr counter
    ++ "_CAM" ++ natRepr cam_id

/-- Embeds `os.path.join(directory, base_stem + underscore + str(suffix) + jpg)`. -/
def suffixedPath (directory base_stem : String) (suffix : ℕ) : String :=
  directory ++ "/" ++ base_stem ++ "_" ++ natRepr suffix ++ ".jpg"

/-- Embeds `os.path.join(directory, base_name)`. -/
def basePath (directory base_stem : String) : String :=
  directory ++ "/" ++ base_stem ++ ".jpg"

lemma suffixedPath_injective (directory base_stem : String) :
    Function.Injective (fun k => suffixedPath directory base_stem (k + 1)) := by
  intro m n h
  simp only [suffixedPath] at h
  have hdata := congrArg String.data h
  simp only [String.data_append, List.append_assoc] at hdata
  have h1 := List.append_cancel_left hdata
  have h2 := List.append_cancel_left h1
  have h3 := List.append_cancel_left h2
  have h4 := List.append_cancel_left h3
  have h5 := List.append_cancel_right h4
  have : natRepr (m + 1) = natRepr (n + 1) := String.ext h5
  have := natRepr_injective this
  omega

lemma exists_free_suffix (directory base_stem : String) (fs : List String) :
    ∃ k, suffixedPath directory base_stem (k + 1) ∉ fs := by
  by_contra hall
  push_neg at hall
  have hcard : (Finset.image (fun k => suffixedPath directory base_stem (k + 1))
      (Finset.range (fs.length + 1))).card = fs.length + 1 := by
    rw [Finset.card_image_of_injective _ (suffixedPath_injective directory base_stem)]
    exact Finset.card_range _
  have hsub : Finset.image (fun k => suffixedPath directory base_stem (k + 1))
      (Finset.range (fs.length + 1)) ⊆ fs.toFinset := by
    intro x hx
    simp only [Finset.mem_image] at hx
    obtain ⟨k, _, rfl⟩ := hx
    exact List.mem_toFinset.2 (hall k)
  have := Finset.card_le_card hsub
  have := fs.toFinset_card_le
  omega

/-- Embeds `file_utils.py::get_next_filename`.  The filesystem is abstracted by the
list `fs` of existing paths.  The base path is returned when it does not exist;
otherwise the loop `while True: ... suffix += 1` returns the first free
integer-suffixed path, here the least such suffix via `Nat.find`. -/
def get_next_filename (fs : List String) (directory status order_number part_number : String)
    (counter cam_id : ℕ) : String :=
  let base_stem := baseStem status order_number part_number counter cam_id
  let full_path := basePath directory base_stem
  if full_path ∈ fs then
    suffixedPath directory base_stem (Nat.find (exists_free_suffix directory base_stem fs) + 1)
  else
    full_path

/-- The result dictionary built by `main.py::Inspector.process_and_save`. -/
structure InspResult where
  part_number : String
  cam_id : ℕ
  status : String
  measurements : List ℝ
  defects : List String
  image_path : String

/-- The hole-measurement loop of `main.py:114-123`:
`for idx, hole in enumerate(holes[:4])`, writing width/height of holes
`0`/`1` into slots `idx*2`, `idx*2+1` and of holes `2`/`3` into slots
`6+(idx-2)*2`, `6+(idx-2)*2+1`. -/
def recordHoleMeasurements : ℕ → List Hole → List ℝ → List ℝ
  | _, [], m => m
  | idx, hole :: rest, m =>
    let m' :=
      if idx < 2 then
        (m.set (idx * 2) (hole.width : ℝ)).set (idx * 2 + 1) (hole.height : ℝ)
      else
        (m.set (6 + (idx - 2) * 2) (hole.width : ℝ)).set
          (6 + (idx - 2) * 2 + 1) (hole.height : ℝ)
    recordHoleMeasurements (idx + 1) rest m'

/-- The analysis part of `main.py::Inspector.process_and_save` (lines 89-151):
presence check, hole detection and x-sort, hole-measurement recording,
missing-hole check, seam computation (defaulting to zeros below 4 holes) and
spatter check, assembling status, measurements and the defect list. -/
noncomputable def analyze (img : GrayImage) (part_number : String) (cam_id : ℕ) : InspResult :=
  let base : InspResult :=
    { part_number := part_number, cam_id := cam_id, status := "OK",
      measurements := List.replicate 12 (0 : ℝ), defects := [], image_path := "" }
  let part_present := detect_part_presence img Config.PART_DETECTION_THRESHOLD
  if part_present = false then
    { base with status := "NOK", defects := base.defects ++ ["Part Missing"] }
  else
    let holes := List.insertionSort byX (detect_holes img)
    let r1 := { base with
      measurements := recordHoleMeasurements 0 (holes.take 4) base.measurements }
    let r2 :=
      if holes.length < Config.EXPECTED_HOLE_COUNT then
        { r1 with
          status := "NOK"
          defects := r1.defects ++ ["Missing holes: expected "
            ++ natRepr Config.EXPECTED_HOLE_COUNT ++ ", found "
            ++ natRepr holes.length] }
      else r1
    let r3 :=
      if 4 ≤ holes.length then
        let seam_lengths := calculate_seam_lengths holes
        { r2 with measurements :=
          ((((r2.measurements.set 4 seam_lengths.1).set 5 seam_lengths.2.1).set
            10 seam_lengths.2.2.1).set 11 seam_lengths.2.2.2) }
      else
        { r2 with
          status := "NOK"
          defects := r2.defects ++ ["Insufficient holes for weld measurement"] }
    let spatter_count := detect_spatter img
    if Config.MAX_SPATTER_COUNT < spatter_count then
      { r3 with
        status := "NOK"
        defects := r3.defects ++ ["Excessive spatter: " ++ natRepr spatter_count
          ++ " detected"] }
    else r3

/-- The mutable state of `main.py::Inspector`: the per-order counters, plus the
persistence collaborators at the boundary — the paths written so far (the
filesystem seen by `get_next_filename` / `cv2.imwrite`) and the trace of
`_save_to_csv` calls (result, counter value). -/
structure SessionState where
  user : String
  order_number : String
  order_dir : String
  ok_counter : ℕ
  nok_counter : ℕ
  files : List String
  csv_calls : List (InspResult × ℕ)

/-- Embeds `Inspector.__init__`: both counters start at 0, `order_dir` is
`os.path.join(output_dir, order_number)`. -/
def Inspector.init (user order_number output_dir : String) : SessionState :=
  { user := user, order_number := order_number,
    order_dir := output_dir ++ "/" ++ order_number,
    ok_counter := 0, nok_counter := 0, files := [], csv_calls := [] }

/-- Embeds `main.py::Inspector.process_and_save`: analysis (lines 89-151), counter
update and counter-value selection (164-170), non-overwriting filename request
and image write (173-178), record append (181). -/
noncomputable def process_and_save (s : SessionState) (img : GrayImage)
    (part_number : String) (cam_id : ℕ) : InspResult × SessionState :=
  let r := analyze img part_number cam_id
  let ok' := if r.status = "OK" then s.ok_counter + 1 else s.ok_counter
  let nok' := if r.status = "OK" then s.nok_counter else s.nok_counter + 1
  let counter_val := if r.status = "OK" then ok' else nok'
  let output_path := get_next_filename s.files s.order_dir r.status s.order_number
    part_number counter_val cam_id
  let r' := { r with image_path := output_path }
  (r',
   { s with
     ok_counter := ok'
     nok_counter := nok'
     files := s.files ++ [output_path]
     csv_calls := s.csv_calls ++ [(r', counter_val)] })

/-- The two shapes of dictionary `Inspector.capture_and_process` can return:
a full processing result, or the error dictionary
with status `ERROR` and message `Image capture failed`. -/
inductive CaptureOutcome where
  | processed (result : InspResult)
  | error (status message : String)

/-- Embeds `main.py::Inspector.capture_and_process`: `camera.capture_image()` is
abstracted by its outcome `img : Option GrayImage` (`None` on capture
failure). -/
noncomputable def capture_and_process (s : SessionState) (img : Option GrayImage)
    (part_number : String) (cam_id : ℕ) : CaptureOutcome × SessionState :=
  match img with
  | some img =>
    let pr := process_and_save s img part_number cam_id
    (CaptureOutcome.processed pr.1, pr.2)
  | none => (CaptureOutcome.error "ERROR" "Image capture failed", s)

/-- A session run: a sequence of `process_and_save` calls, each with its own
frame, part number and camera id. -/
noncomputable def runSession (s : SessionState) (inputs : List (GrayImage × String × ℕ)) :
    SessionState :=
  inputs.foldl (fun s t => (process_and_save s t.1 t.2.1 t.2.2).2) s

/-- Whether a frame is classified NOK by the pipeline (the classification does
not depend on the session state). -/
noncomputable def classifiedNOK (t : GrayImage × String × ℕ) : Bool :=
  decide ((analyze t.1 t.2.1 t.2.2).status ≠ "OK")

/-- A measured value as passed to `Inspector._save_to_csv`: either a number or
a value on which `float()` raises (`ValueError`/`TypeError`). -/
inductive CsvValue where
  | num (q : ℚ)
  | nonNumeric

/-- One row of the measurement record `{order_number}.csv`. -/
structure CsvRow where
  number : ℕ
  status : String
  ordernumber : String
  counter : ℕ
  date : String
  time : String
  values : List ℚ
  user : String

/-- Embeds `round(float(val), 2)`: rounding to 2 decimal places. -/
def round2 (q : ℚ) : ℚ := (round (100 * q) : ℤ) / 100

/-- The per-value body of the loop in `_save_to_csv`:
`round(float(val), 2)`, or `0.0` when `float` raises. -/
def storeValue : CsvValue → ℚ
  | CsvValue.num q => round2 q
  | CsvValue.nonNumeric => 0

/-- Embeds `main.py::Inspector._save_to_csv`: reads the existing rows, computes
`next_number = df_existing.shape[0] + 1`, builds the new row and appends it.
The CSV file content is abstracted by its list of rows. -/
def save_to_csv (csv : List CsvRow) (status ordernumber : String) (counter_val : ℕ)
    (date time : String) (measurements : List CsvValue) (user : String) : List CsvRow :=
  let next_number := csv.length + 1
  let row : CsvRow :=
    { number := next_number, status := status, ordernumber := ordernumber,
      counter := counter_val, date := date, time := time,
      values := measurements.map storeValue, user := user }
  csv ++ [row]

/-- A concrete 2×2 hole grid: centers 100 apart, top-row radii 15 and 20
(widths 30 and 40), matching the worked example of the spec: `D=100, r1=15, r2=20`. -/
def exGrid : List Hole :=
  [⟨(0, 0), 30, 30⟩, ⟨(100, 0), 40, 40⟩, ⟨(0, 100), 30, 30⟩, ⟨(100, 100), 40, 40⟩]

/-- A grid of overlapping holes (all radii 55, centers 100 apart): every seam
comes out negative. -/
def exOverlap : List Hole :=
  [⟨(0, 0), 110, 110⟩, ⟨(100, 0), 110, 110⟩, ⟨(0, 100), 110, 110⟩, ⟨(100, 100), 110, 110⟩]

/-- Adding the same offset vector `(dx, dy)` to the center of a hole. -/
def translateHole (dx dy : ℤ) (h : Hole) : Hole :=
  { h with center := (h.center.1 + dx, h.center.2 + dy) }

/-! ### Helper lemmas about the pipeline -/

lemma process_and_save_fst (s : SessionState) (g : GrayImage) (pn : String) (cam : ℕ) :
    (process_and_save s g pn cam).1.status = (analyze g pn cam).status ∧
    (process_and_save s g pn cam).1.defects = (analyze g pn cam).defects ∧
    (process_and_save s g pn cam).1.measurements = (analyze g pn cam).measurements :=
  ⟨rfl, rfl, rfl⟩

lemma analyze_not_present (g : GrayImage) (pn : String) (cam : ℕ)
    (hp : detect_part_presence g Config.PART_DETECTION_THRESHOLD = false) :
    analyze g pn cam =
      { part_number := pn, cam_id := cam, status := "NOK",
        measurements := List.replicate 12 (0 : ℝ), defects := ["Part Missing"],
        image_path := "" } := by
  simp [analyze, hp]

lemma analyze_present_status_defects (g : GrayImage) (pn : String) (cam : ℕ)
    (hp : detect_part_presence g Config.PART_DETECTION_THRESHOLD = true) :
    (analyze g pn cam).status
      = (if (detect_holes g).length < 4 ∨ Config.MAX_SPATTER_COUNT < detect_spatter g
         then "NOK" else "OK") ∧
    (analyze g pn cam).defects
      = (if (detect_holes g).length < 4 then
           ["Missing holes: expected " ++ natRepr Config.EXPECTED_HOLE_COUNT ++ ", found "
              ++ natRepr (detect_holes g).length,
            "Insufficient holes for weld measurement"]
         else [])
        ++ (if Config.MAX_SPATTER_COUNT < detect_spatter g then
              ["Excessive spatter: " ++ natRepr (detect_spatter g) ++ " detected"]
            else []) := by
  by_cases hlen : (detect_holes g).length < 4 <;>
    by_cases hsp : Config.MAX_SPATTER_COUNT < detect_spatter g
  · simp [analyze, hp, hlen, hsp, Config.EXPECTED_HOLE_COUNT,
      List.length_insertionSort, Nat.not_le.mpr hlen]
  · simp [analyze, hp, hlen, hsp, Config.EXPECTED_HOLE_COUNT,
      List.length_insertionSort, Nat.not_le.mpr hlen]
  · simp [analyze, hp, hlen, hsp, Config.EXPECTED_HOLE_COUNT,
      List.length_insertionSort, Nat.le_of_not_lt hlen]
  · simp [analyze, hp, hlen, hsp, Config.EXPECTED_HOLE_COUNT,
      List.length_insertionSort, Nat.le_of_not_lt hlen]

lemma process_and_save_counters (s : SessionState) (g : GrayImage) (pn : String) (cam : ℕ) :
    ((analyze g pn cam).status = "OK" →
      (process_and_save s g pn cam).2.ok_counter = s.ok_counter + 1 ∧
      (process_and_save s g pn cam).2.nok_counter = s.nok_counter) ∧
    ((analyze g pn cam).status ≠ "OK" →
      (process_and_save s g pn cam).2.ok_counter = s.ok_counter ∧
      (process_and_save s g pn cam).2.nok_counter = s.nok_counter + 1) := by
  by_cases h : (analyze g pn cam).status = "OK" <;>
    simp [process_and_save, h]

lemma runSession_counters (inputs : List (GrayImage × String × ℕ)) :
    ∀ s : SessionState,
      (runSession s inputs).ok_counter
        = s.ok_counter + inputs.countP (fun t => !classifiedNOK t) ∧
      (runSession s inputs).nok_counter
        = s.nok_counter + inputs.countP (fun t => classifiedNOK t) := by
  induction inputs with
  | nil => intro s; simp [runSession]
  | cons t rest ih =>
    intro s
    have hstep := process_and_save_counters s t.1 t.2.1 t.2.2
    have hrest := ih (process_and_save s t.1 t.2.1 t.2.2).2
    by_cases h : (analyze t.1 t.2.1 t.2.2).status = "OK"
    · have := hstep.1 h
      simp only [runSession, List.foldl_cons] at hrest ⊢
      rw [hrest.1, hrest.2, this.1, this.2]
      simp [classifiedNOK, h, List.countP_cons]
      omega
    · have := hstep.2 h
      simp only [runSession, List.foldl_cons] at hrest ⊢
      rw [hrest.1, hrest.2, this.1, this.2]
      simp [classifiedNOK, h, List.countP_cons]
      omega

/-! ### C9: acquisition failure is a distinct error outcome -/

/-- C9: when image capture yields no frame, `capture_and_process` returns the
distinct error outcome with status `ERROR` and message `Image capture failed`
(never a part-missing NOK classification), the session state — counters, saved
files, appended record rows — is completely unchanged. -/
theorem capture_failure_reports_error (s : SessionState) (pn : String) (cam : ℕ) :
    capture_and_process s none pn cam
      = (CaptureOutcome.error "ERROR" "Image capture failed", s) ∧
    (capture_and_process s none pn cam).2.ok_counter = s.ok_counter ∧
    (capture_and_process s none pn cam).2.nok_counter = s.nok_counter ∧
    (capture_and_process s none pn cam).2.files = s.files ∧
    (capture_and_process s none pn cam).2.csv_calls = s.csv_calls ∧
    ∀ r : InspResult,
      CaptureOutcome.error "ERROR" "Image capture failed" ≠ CaptureOutcome.processed r :=
  ⟨rfl, rfl, rfl, rfl, rfl, fun _ h => by cases h⟩

/-! ### C10: a part-absent frame short-circuits all analysis -/

/-- C10: whenever the mean intensity of the frame is at or above the part-presence
threshold, the result carries exactly the single defect `Part Missing`,
status NOK, and all 12 measurement slots left at `0.0` — independent of
whatever holes or spatter the frame would otherwise exhibit, so no spatter or
missing-holes defect can co-occur. -/
theorem part_absent_single_defect (s : SessionState) (g : GrayImage) (pn : String) (cam : ℕ)
    (h : Config.PART_DETECTION_THRESHOLD ≤ meanIntensity g.pixels) :
    (process_and_save s g pn cam).1.status = "NOK" ∧
    (process_and_save s g pn cam).1.defects = ["Part Missing"] ∧
    (process_and_save s g pn cam).1.measurements = List.replicate 12 (0 : ℝ) := by
  have hp : detect_part_presence g Config.PART_DETECTION_THRESHOLD = false := by
    simp [detect_part_presence, not_lt.mpr h]
  have ha := analyze_not_present g pn cam hp
  have hf := process_and_save_fst s g pn cam
  refine ⟨?_, ?_, ?_⟩
  · rw [hf.1, ha]
  · rw [hf.2.1, ha]
  · rw [hf.2.2, ha]

/-- Witness for C10 at a concrete bright frame (mean 255) that nonetheless
carries two holes and 99 spatter blobs: none of that is analysed. -/
theorem part_absent_single_defect_witness :
    Config.PART_DETECTION_THRESHOLD
      ≤ meanIntensity (GrayImage.mk [255] [⟨(10, 10), 30, 30⟩, ⟨(80, 10), 30, 30⟩] 99).pixels ∧
    (process_and_save (Inspector.init "Bob" "749274" ".")
        (GrayImage.mk [255] [⟨(10, 10), 30, 30⟩, ⟨(80, 10), 30, 30⟩] 99) "1568" 1).1.status = "NOK" ∧
    (process_and_save (Inspector.init "Bob" "749274" ".")
        (GrayImage.mk [255] [⟨(10, 10), 30, 30⟩, ⟨(80, 10), 30, 30⟩] 99) "1568" 1).1.defects
      = ["Part Missing"] ∧
    (process_and_save (Inspector.init "Bob" "749274" ".")
        (GrayImage.mk [255] [⟨(10, 10), 30, 30⟩, ⟨(80, 10), 30, 30⟩] 99) "1568" 1).1.measurements
      = List.replicate 12 (0 : ℝ) := by
  refine ⟨by norm_num [meanIntensity, Config.PART_DETECTION_THRESHOLD], ?_⟩
  exact part_absent_single_defect _ _ _ _
    (by norm_num [meanIntensity, Config.PART_DETECTION_THRESHOLD])

/-! ### C2: counter bookkeeping -/

lemma countP_classifiedNOK_split (inputs : List (GrayImage × String × ℕ)) :
    inputs.countP (fun t => classifiedNOK t)
      + inputs.countP (fun t => !classifiedNOK t) = inputs.length := by
  induction inputs with
  | nil => simp
  | cons t rest ih =>
    by_cases hc : classifiedNOK t <;> simp [List.countP_cons, hc] <;> omega

/-- C2: each `process_and_save` call increments exactly one of the two
counters by exactly 1 and never decreases either; starting from a fresh
session, after any sequence of `N` calls of which `k` are classified NOK the
counters read `ok_counter = N - k` and `nok_counter = k`; and the final
counter values are invariant under permuting the call sequence. -/
theorem counters_track_classifications :
    (∀ (s : SessionState) (g : GrayImage) (pn : String) (cam : ℕ),
      (process_and_save s g pn cam).2.ok_counter
          + (process_and_save s g pn cam).2.nok_counter
        = s.ok_counter + s.nok_counter + 1 ∧
      (((process_and_save s g pn cam).2.ok_counter = s.ok_counter + 1 ∧
        (process_and_save s g pn cam).2.nok_counter = s.nok_counter) ∨
       ((process_and_save s g pn cam).2.nok_counter = s.nok_counter + 1 ∧
        (process_and_save s g pn cam).2.ok_counter = s.ok_counter)) ∧
      s.ok_counter ≤ (process_and_save s g pn cam).2.ok_counter ∧
      s.nok_counter ≤ (process_and_save s g pn cam).2.nok_counter) ∧
    (∀ (user order_number output_dir : String) (inputs : List (GrayImage × String × ℕ)),
      (runSession (Inspector.init user order_number output_dir) inputs).nok_counter
        = inputs.countP (fun t => classifiedNOK t) ∧
      (runSession (Inspector.init user order_number output_dir) inputs).ok_counter
        = inputs.length - inputs.countP (fun t => classifiedNOK t)) ∧
    (∀ (s : SessionState) (inputs inputs' : List (GrayImage × String × ℕ)),
      inputs.Perm inputs' →
      (runSession s inputs).ok_counter = (runSession s inputs').ok_counter ∧
      (runSession s inputs).nok_counter = (runSession s inputs').nok_counter) := by
  refine ⟨?_, ?_, ?_⟩
  · intro s g pn cam
    have h := process_and_save_counters s g pn cam
    by_cases hs : (analyze g pn cam).status = "OK"
    · obtain ⟨h1, h2⟩ := h.1 hs
      exact ⟨by omega, Or.inl ⟨h1, h2⟩, by omega, by omega⟩
    · obtain ⟨h1, h2⟩ := h.2 hs
      exact ⟨by omega, Or.inr ⟨h2, h1⟩, by omega, by omega⟩
  · intro user order_number output_dir inputs
    have h := runSession_counters inputs (Inspector.init user order_number output_dir)
    have hsum := countP_classifiedNOK_split inputs
    constructor
    · rw [h.2]; simp [Inspector.init]
    · rw [h.1]
      simp only [Inspector.init]
      omega
  · intro s inputs inputs' hperm
    have h := runSession_counters inputs s
    have h' := runSession_counters inputs' s
    have hc := List.Perm.countP_eq (fun t => classifiedNOK t) hperm
    have hc' := List.Perm.countP_eq (fun t => !classifiedNOK t) hperm
    rw [h.1, h.2, h'.1, h'.2, hc, hc']
    exact ⟨rfl, rfl⟩

/-- Witness for C2 on a concrete two-frame run (one OK frame, one NOK
part-missing frame) and its swapped permutation. -/
theorem counters_track_classifications_witness :
    ([((GrayImage.mk [0] [⟨(0, 0), 40, 40⟩, ⟨(100, 0), 40, 40⟩, ⟨(0, 100), 40, 40⟩,
          ⟨(100, 100), 40, 40⟩] 0), "1568", 1),
      ((GrayImage.mk [255] [] 0), "1569", 1)] :
        List (GrayImage × String × ℕ)).Perm
      [((GrayImage.mk [255] [] 0), "1569", 1),
       ((GrayImage.mk [0] [⟨(0, 0), 40, 40⟩, ⟨(100, 0), 40, 40⟩, ⟨(0, 100), 40, 40⟩,
          ⟨(100, 100), 40, 40⟩] 0), "1568", 1)] ∧
    (runSession (Inspector.init "Bob" "749274" ".")
      [((GrayImage.mk [0] [⟨(0, 0), 40, 40⟩, ⟨(100, 0), 40, 40⟩, ⟨(0, 100), 40, 40⟩,
          ⟨(100, 100), 40, 40⟩] 0), "1568", 1),
       ((GrayImage.mk [255] [] 0), "1569", 1)]).ok_counter
      = (runSession (Inspector.init "Bob" "749274" ".")
      [((GrayImage.mk [255] [] 0), "1569", 1),
       ((GrayImage.mk [0] [⟨(0, 0), 40, 40⟩, ⟨(100, 0), 40, 40⟩, ⟨(0, 100), 40, 40⟩,
          ⟨(100, 100), 40, 40⟩] 0), "1568", 1)]).ok_counter :=
  ⟨List.Perm.swap _ _ _,
   (counters_track_classifications.2.2 _ _ _ (List.Perm.swap _ _ _)).1⟩

/-! ### C1: missing-hole classification -/

/-- Counterexample to C1 as stated: a part-present frame with 5 detected holes
has a hole count different from the configured expected count (4), yet
`process_and_save` classifies it OK with no defect at all — the code compares
with `<`, not `!=`. -/
theorem missing_holes_neq_counterexample :
    detect_part_presence
        (GrayImage.mk [0] [⟨(10, 10), 30, 30⟩, ⟨(80, 10), 30, 30⟩, ⟨(10, 80), 30, 30⟩,
          ⟨(80, 80), 30, 30⟩, ⟨(150, 45), 30, 30⟩] 0) Config.PART_DETECTION_THRESHOLD = true ∧
    (detect_holes (GrayImage.mk [0] [⟨(10, 10), 30, 30⟩, ⟨(80, 10), 30, 30⟩, ⟨(10, 80), 30, 30⟩,
          ⟨(80, 80), 30, 30⟩, ⟨(150, 45), 30, 30⟩] 0)).length ≠ Config.EXPECTED_HOLE_COUNT ∧
    (process_and_save (Inspector.init "Bob" "749274" ".")
        (GrayImage.mk [0] [⟨(10, 10), 30, 30⟩, ⟨(80, 10), 30, 30⟩, ⟨(10, 80), 30, 30⟩,
          ⟨(80, 80), 30, 30⟩, ⟨(150, 45), 30, 30⟩] 0) "1568" 1).1.status = "OK" ∧
    (process_and_save (Inspector.init "Bob" "749274" ".")
        (GrayImage.mk [0] [⟨(10, 10), 30, 30⟩, ⟨(80, 10), 30, 30⟩, ⟨(10, 80), 30, 30⟩,
          ⟨(80, 80), 30, 30⟩, ⟨(150, 45), 30, 30⟩] 0) "1568" 1).1.defects = [] := by
  have hp : detect_part_presence
      (GrayImage.mk [0] [⟨(10, 10), 30, 30⟩, ⟨(80, 10), 30, 30⟩, ⟨(10, 80), 30, 30⟩,
        ⟨(80, 80), 30, 30⟩, ⟨(150, 45), 30, 30⟩] 0) Config.PART_DETECTION_THRESHOLD = true := by
    norm_num [detect_part_presence, meanIntensity, Config.PART_DETECTION_THRESHOLD]
  have ha := analyze_present_status_defects
    (GrayImage.mk [0] [⟨(10, 10), 30, 30⟩, ⟨(80, 10), 30, 30⟩, ⟨(10, 80), 30, 30⟩,
      ⟨(80, 80), 30, 30⟩, ⟨(150, 45), 30, 30⟩] 0) "1568" 1 hp
  have hf := process_and_save_fst (Inspector.init "Bob" "749274" ".")
    (GrayImage.mk [0] [⟨(10, 10), 30, 30⟩, ⟨(80, 10), 30, 30⟩, ⟨(10, 80), 30, 30⟩,
      ⟨(80, 80), 30, 30⟩, ⟨(150, 45), 30, 30⟩] 0) "1568" 1
  refine ⟨hp, by decide, ?_, ?_⟩
  · rw [hf.1, ha.1]
    norm_num [detect_holes, detect_spatter, Config.MAX_SPATTER_COUNT]
  · rw [hf.2.1, ha.2]
    norm_num [detect_holes, detect_spatter, Config.MAX_SPATTER_COUNT]

/-- C1 (amended): for every part-present frame whose detected hole count is
*less than* the configured expected count (4), `process_and_save` classifies
the frame NOK and records a missing-holes defect citing the expected and found
counts. -/
theorem missing_holes_nok (s : SessionState) (g : GrayImage) (pn : String) (cam : ℕ)
    (hp : detect_part_presence g Config.PART_DETECTION_THRESHOLD = true)
    (hlen : (detect_holes g).length < Config.EXPECTED_HOLE_COUNT) :
    (process_and_save s g pn cam).1.status = "NOK" ∧
    ("Missing holes: expected " ++ natRepr Config.EXPECTED_HOLE_COUNT ++ ", found "
        ++ natRepr (detect_holes g).length) ∈ (process_and_save s g pn cam).1.defects := by
  have ha := analyze_present_status_defects g pn cam hp
  have hf := process_and_save_fst s g pn cam
  have hlen4 : (detect_holes g).length < 4 := hlen
  constructor
  · rw [hf.1, ha.1, if_pos (Or.inl hlen4)]
  · rw [hf.2.1, ha.2, if_pos hlen4]
    simp

/-- Witness for the amended C1 at a part-present frame with exactly 3 holes:
status NOK and the defect message cites `expected 4, found 3`. -/
theorem missing_holes_nok_witness :
    detect_part_presence (GrayImage.mk [0] [⟨(10, 10), 30, 30⟩, ⟨(80, 10), 30, 30⟩,
        ⟨(10, 80), 30, 30⟩] 0) Config.PART_DETECTION_THRESHOLD = true ∧
    (detect_holes (GrayImage.mk [0] [⟨(10, 10), 30, 30⟩, ⟨(80, 10), 30, 30⟩,
        ⟨(10, 80), 30, 30⟩] 0)).length < Config.EXPECTED_HOLE_COUNT ∧
    (process_and_save (Inspector.init "Bob" "749274" ".")
        (GrayImage.mk [0] [⟨(10, 10), 30, 30⟩, ⟨(80, 10), 30, 30⟩,
          ⟨(10, 80), 30, 30⟩] 0) "1568" 1).1.status = "NOK" ∧
    "Missing holes: expected 4, found 3"
      ∈ (process_and_save (Inspector.init "Bob" "749274" ".")
        (GrayImage.mk [0] [⟨(10, 10), 30, 30⟩, ⟨(80, 10), 30, 30⟩,
          ⟨(10, 80), 30, 30⟩] 0) "1568" 1).1.defects := by
  have hp : detect_part_presence (GrayImage.mk [0] [⟨(10, 10), 30, 30⟩, ⟨(80, 10), 30, 30⟩,
      ⟨(10, 80), 30, 30⟩] 0) Config.PART_DETECTION_THRESHOLD = true := by
    norm_num [detect_part_presence, meanIntensity, Config.PART_DETECTION_THRESHOLD]
  have hmain := missing_holes_nok (Inspector.init "Bob" "749274" ".")
    (GrayImage.mk [0] [⟨(10, 10), 30, 30⟩, ⟨(80, 10), 30, 30⟩, ⟨(10, 80), 30, 30⟩] 0)
    "1568" 1 hp (by decide)
  have hmsg : ("Missing holes: expected " ++ natRepr Config.EXPECTED_HOLE_COUNT ++ ", found "
      ++ natRepr (detect_holes (GrayImage.mk [0] [⟨(10, 10), 30, 30⟩, ⟨(80, 10), 30, 30⟩,
        ⟨(10, 80), 30, 30⟩] 0)).length) = "Missing holes: expected 4, found 3" := by decide
  exact ⟨hp, by decide, hmain.1, hmsg ▸ hmain.2⟩

/-! ### C5: geometric degeneracy below 4 holes -/

/-- C5: with fewer than 4 holes, `calculate_seam_lengths` does not fail but
returns `(0.0, 0.0, 0.0, 0.0)`; classification still proceeds — the frame is
NOK with the insufficient-holes defect — and the spatter check still runs (an
excessive spatter count still contributes its defect). -/
theorem insufficient_holes_degrade_gracefully :
    (∀ holes : List Hole, holes.length < 4 →
      calculate_seam_lengths holes = (0, 0, 0, 0)) ∧
    (∀ (s : SessionState) (g : GrayImage) (pn : String) (cam : ℕ),
      detect_part_presence g Config.PART_DETECTION_THRESHOLD = true →
      (detect_holes g).length < 4 →
      (process_and_save s g pn cam).1.status = "NOK" ∧
      "Insufficient holes for weld measurement" ∈ (process_and_save s g pn cam).1.defects ∧
      (Config.MAX_SPATTER_COUNT < detect_spatter g →
        ("Excessive spatter: " ++ natRepr (detect_spatter g) ++ " detected")
          ∈ (process_and_save s g pn cam).1.defects)) := by
  constructor
  · intro holes hlen
    simp [calculate_seam_lengths, hlen]
  · intro s g pn cam hp hlen
    have ha := analyze_present_status_defects g pn cam hp
    have hf := process_and_save_fst s g pn cam
    refine ⟨?_, ?_, ?_⟩
    · rw [hf.1, ha.1, if_pos (Or.inl hlen)]
    · rw [hf.2.1, ha.2, if_pos hlen]
      simp
    · intro hsp
      rw [hf.2.1, ha.2, if_pos hlen, if_pos hsp]
      simp

/-- Witness for C5: a part-present frame with 2 holes and 7 spatter blobs —
seams default to zeros, status NOK, and both the insufficient-holes and the
excessive-spatter defects are present. -/
theorem insufficient_holes_degrade_gracefully_witness :
    ((detect_holes (GrayImage.mk [0] [⟨(10, 10), 30, 30⟩, ⟨(80, 10), 30, 30⟩] 7)).length < 4 ∧
      calculate_seam_lengths
          (detect_holes (GrayImage.mk [0] [⟨(10, 10), 30, 30⟩, ⟨(80, 10), 30, 30⟩] 7))
        = (0, 0, 0, 0)) ∧
    (process_and_save (Inspector.init "Bob" "749274" ".")
        (GrayImage.mk [0] [⟨(10, 10), 30, 30⟩, ⟨(80, 10), 30, 30⟩] 7) "1570" 1).1.status
      = "NOK" ∧
    "Insufficient holes for weld measurement"
      ∈ (process_and_save (Inspector.init "Bob" "749274" ".")
          (GrayImage.mk [0] [⟨(10, 10), 30, 30⟩, ⟨(80, 10), 30, 30⟩] 7) "1570" 1).1.defects ∧
    "Excessive spatter: 7 detected"
      ∈ (process_and_save (Inspector.init "Bob" "749274" ".")
          (GrayImage.mk [0] [⟨(10, 10), 30, 30⟩, ⟨(80, 10), 30, 30⟩] 7) "1570" 1).1.defects := by
  have hp : detect_part_presence (GrayImage.mk [0] [⟨(10, 10), 30, 30⟩, ⟨(80, 10), 30, 30⟩] 7)
      Config.PART_DETECTION_THRESHOLD = true := by
    norm_num [detect_part_presence, meanIntensity, Config.PART_DETECTION_THRESHOLD]
  have hmain := insufficient_holes_degrade_gracefully
  have h2 := hmain.2 (Inspector.init "Bob" "749274" ".")
    (GrayImage.mk [0] [⟨(10, 10), 30, 30⟩, ⟨(80, 10), 30, 30⟩] 7) "1570" 1 hp (by decide)
  have hmsg : ("Excessive spatter: "
      ++ natRepr (detect_spatter (GrayImage.mk [0] [⟨(10, 10), 30, 30⟩, ⟨(80, 10), 30, 30⟩] 7))
      ++ " detected") = "Excessive spatter: 7 detected" := by decide
  exact ⟨⟨by decide, hmain.1 _ (by decide)⟩, h2.1, h2.2.1, hmsg ▸ h2.2.2 (by decide)⟩

/-! ### C3: the fixed positional slot mapping -/

lemma calculate_seam_lengths_short (holes : List Hole) (h : holes.length < 4) :
    calculate_seam_lengths holes = (0, 0, 0, 0) := by
  simp [calculate_seam_lengths, h]

lemma analyze_measurements_present (g : GrayImage) (pn : String) (cam : ℕ)
    (hp : detect_part_presence g Config.PART_DETECTION_THRESHOLD = true) :
    (analyze g pn cam).measurements =
      (if 4 ≤ (detect_holes g).length then
        (((((recordHoleMeasurements 0 ((List.insertionSort byX (detect_holes g)).take 4)
              (List.replicate 12 (0 : ℝ))).set
            4 (calculate_seam_lengths (List.insertionSort byX (detect_holes g))).1).set
            5 (calculate_seam_lengths (List.insertionSort byX (detect_holes g))).2.1).set
            10 (calculate_seam_lengths (List.insertionSort byX (detect_holes g))).2.2.1).set
            11 (calculate_seam_lengths (List.insertionSort byX (detect_holes g))).2.2.2)
      else
        recordHoleMeasurements 0 ((List.insertionSort byX (detect_holes g)).take 4)
          (List.replicate 12 (0 : ℝ))) := by
  by_cases hlen : (detect_holes g).length < 4
  · simp only [analyze, hp, Config.EXPECTED_HOLE_COUNT, List.length_insertionSort, hlen,
      Nat.not_le.mpr hlen, Bool.true_eq_false, if_false, if_true, if_pos hlen,
      if_neg (Nat.not_le.mpr hlen)]
    split <;> rfl
  · simp only [analyze, hp, Config.EXPECTED_HOLE_COUNT, List.length_insertionSort,
      Bool.true_eq_false, if_false, if_neg hlen, if_pos (Nat.le_of_not_lt hlen)]
    split <;> rfl

/-- C3: for every part-present frame, the 12 measurement slots follow the
fixed positional mapping — with holes sorted by ascending x-coordinate, holes
0 and 1 fill slots Value1–Value4 (width/height pairs, 0-based slots 0–3),
holes 2 and 3 fill Value7–Value10 (slots 6–9), and the derived seam lengths
fill Value5 (top, slot 4), Value6 (bottom, slot 5), Value11 (left, slot 10)
and Value12 (right, slot 11). -/
theorem measurement_slot_mapping (s : SessionState) (g : GrayImage) (pn : String) (cam : ℕ)
    (hp : detect_part_presence g Config.PART_DETECTION_THRESHOLD = true) :
    (∀ i, i < 4 → ∀ h : i < (List.insertionSort byX (detect_holes g)).length,
      (process_and_save s g pn cam).1.measurements.getD
          (if i < 2 then i * 2 else 6 + (i - 2) * 2) 0
        = (((List.insertionSort byX (detect_holes g)).get ⟨i, h⟩).width : ℝ) ∧
      (process_and_save s g pn cam).1.measurements.getD
          ((if i < 2 then i * 2 else 6 + (i - 2) * 2) + 1) 0
        = (((List.insertionSort byX (detect_holes g)).get ⟨i, h⟩).height : ℝ)) ∧
    (process_and_save s g pn cam).1.measurements.getD 4 0
      = (calculate_seam_lengths (List.insertionSort byX (detect_holes g))).1 ∧
    (process_and_save s g pn cam).1.measurements.getD 5 0
      = (calculate_seam_lengths (List.insertionSort byX (detect_holes g))).2.1 ∧
    (process_and_save s g pn cam).1.measurements.getD 10 0
      = (calculate_seam_lengths (List.insertionSort byX (detect_holes g))).2.2.1 ∧
    (process_and_save s g pn cam).1.measurements.getD 11 0
      = (calculate_seam_lengths (List.insertionSort byX (detect_holes g))).2.2.2 := by
  have hf := (process_and_save_fst s g pn cam).2.2
  have hm := analyze_measurements_present g pn cam hp
  have hslen : (List.insertionSort byX (detect_holes g)).length = (detect_holes g).length :=
    List.length_insertionSort _ _
  rw [hf, hm]
  rcases hsort : List.insertionSort byX (detect_holes g) with _ | ⟨a, _ | ⟨b, _ | ⟨c, _ | ⟨d, rest⟩⟩⟩⟩ <;>
    rw [← hslen, hsort]
  · have hz := calculate_seam_lengths_short ([] : List Hole) (by simp)
    refine ⟨fun i hi4 h => by simp at h, ?_, ?_, ?_, ?_⟩ <;>
      simp [hz, recordHoleMeasurements, List.replicate]
  · have hz := calculate_seam_lengths_short [a] (by simp)
    refine ⟨fun i hi4 h => ?_, ?_, ?_, ?_, ?_⟩
    · simp only [List.length_cons, List.length_nil] at h
      interval_cases i <;>
        simp [recordHoleMeasurements, List.replicate]
    all_goals simp [hz, recordHoleMeasurements, List.replicate]
  · have hz := calculate_seam_lengths_short [a, b] (by simp)
    refine ⟨fun i hi4 h => ?_, ?_, ?_, ?_, ?_⟩
    · simp only [List.length_cons, List.length_nil] at h
      interval_cases i <;>
        simp [recordHoleMeasurements, List.replicate]
    all_goals simp [hz, recordHoleMeasurements, List.replicate]
  · have hz := calculate_seam_lengths_short [a, b, c] (by simp)
    refine ⟨fun i hi4 h => ?_, ?_, ?_, ?_, ?_⟩
    · simp only [List.length_cons, List.length_nil] at h
      interval_cases i <;>
        simp [recordHoleMeasurements, List.replicate]
    all_goals simp [hz, recordHoleMeasurements, List.replicate]
  · refine ⟨fun i hi4 h => ?_, ?_, ?_, ?_, ?_⟩
    · interval_cases i <;>
        simp [recordHoleMeasurements, List.replicate]
    all_goals simp [recordHoleMeasurements, List.replicate]

/-- Witness for C3 at a concrete part-present 4-hole frame: slot 0 holds the
first x-sorted hole width and slot 4 holds the derived top seam. -/
theorem measurement_slot_mapping_witness :
    detect_part_presence (GrayImage.mk [0] [⟨(0, 0), 30, 30⟩, ⟨(100, 0), 40, 40⟩,
        ⟨(0, 100), 30, 30⟩, ⟨(100, 100), 40, 40⟩] 0) Config.PART_DETECTION_THRESHOLD = true ∧
    (0 : ℕ) < 4 ∧
    (process_and_save (Inspector.init "Bob" "749274" ".")
        (GrayImage.mk [0] [⟨(0, 0), 30, 30⟩, ⟨(100, 0), 40, 40⟩,
          ⟨(0, 100), 30, 30⟩, ⟨(100, 100), 40, 40⟩] 0) "1568" 1).1.measurements.getD 0 0
      = (((List.insertionSort byX (detect_holes (GrayImage.mk [0] [⟨(0, 0), 30, 30⟩,
          ⟨(100, 0), 40, 40⟩, ⟨(0, 100), 30, 30⟩, ⟨(100, 100), 40, 40⟩] 0))).get
            ⟨0, by decide⟩).width : ℝ) ∧
    (process_and_save (Inspector.init "Bob" "749274" ".")
        (GrayImage.mk [0] [⟨(0, 0), 30, 30⟩, ⟨(100, 0), 40, 40⟩,
          ⟨(0, 100), 30, 30⟩, ⟨(100, 100), 40, 40⟩] 0) "1568" 1).1.measurements.getD 4 0
      = (calculate_seam_lengths (List.insertionSort byX (detect_holes
          (GrayImage.mk [0] [⟨(0, 0), 30, 30⟩, ⟨(100, 0), 40, 40⟩,
            ⟨(0, 100), 30, 30⟩, ⟨(100, 100), 40, 40⟩] 0)))).1 := by
  have hp : detect_part_presence (GrayImage.mk [0] [⟨(0, 0), 30, 30⟩, ⟨(100, 0), 40, 40⟩,
      ⟨(0, 100), 30, 30⟩, ⟨(100, 100), 40, 40⟩] 0) Config.PART_DETECTION_THRESHOLD = true := by
    norm_num [detect_part_presence, meanIntensity, Config.PART_DETECTION_THRESHOLD]
  have h := measurement_slot_mapping (Inspector.init "Bob" "749274" ".")
    (GrayImage.mk [0] [⟨(0, 0), 30, 30⟩, ⟨(100, 0), 40, 40⟩,
      ⟨(0, 100), 30, 30⟩, ⟨(100, 100), 40, 40⟩] 0) "1568" 1 hp
  exact ⟨hp, by decide, (h.1 0 (by decide) (by decide)).1, h.2.1⟩

/-! ### C4: the seam-length formula -/

lemma distance_100_horiz : distance (0, 0) (100, 0) = 100 := by
  unfold distance
  norm_num
  rw [show (10000 : ℝ) = 100 ^ 2 by norm_num, Real.sqrt_sq (by norm_num : (0:ℝ) ≤ 100)]

lemma distance_100_vert (x : ℤ) : distance (x, 0) (x, 100) = 100 := by
  unfold distance
  norm_num
  rw [show (10000 : ℝ) = 100 ^ 2 by norm_num, Real.sqrt_sq (by norm_num : (0:ℝ) ≤ 100)]

lemma distance_100_horiz' : distance (0, 100) (100, 100) = 100 := by
  unfold distance
  norm_num
  rw [show (10000 : ℝ) = 100 ^ 2 by norm_num, Real.sqrt_sq (by norm_num : (0:ℝ) ≤ 100)]

/-- C4: for every list of at least 4 holes, `calculate_seam_lengths`
partitions the first four holes — by ascending y, then ascending x within each
row — into a 2×2 grid and returns each seam length as the Euclidean distance
between the two relevant hole centers minus the sum of the two holes' radii
(radius = width/2).  On the concrete grid with centers 100 apart and radii
15/20 the top seam is 65; with overlapping holes the seam is negative (−10)
and is surfaced, not clamped to zero. -/
theorem seam_length_formula :
    (∀ holes : List Hole, 4 ≤ holes.length →
      ∃ tl tr bl br : Hole,
        List.insertionSort byX ((List.insertionSort byY holes).take 2) = [tl, tr] ∧
        List.insertionSort byX (((List.insertionSort byY holes).drop 2).take 2) = [bl, br] ∧
        calculate_seam_lengths holes =
          (distance tl.center tr.center - ((tl.width : ℝ) / 2 + (tr.width : ℝ) / 2),
           distance bl.center br.center - ((bl.width : ℝ) / 2 + (br.width : ℝ) / 2),
           distance tl.center bl.center - ((tl.width : ℝ) / 2 + (bl.width : ℝ) / 2),
           distance tr.center br.center - ((tr.width : ℝ) / 2 + (br.width : ℝ) / 2))) ∧
    calculate_seam_lengths exGrid = (65, 65, 70, 60) ∧
    (calculate_seam_lengths exOverlap).1 = -10 ∧ (calculate_seam_lengths exOverlap).1 < 0 := by
  refine ⟨?_, ?_, ?_, ?_⟩
  · intro holes h4
    have hytop : ((List.insertionSort byY holes).take 2).length = 2 := by
      simp [List.length_take, List.length_insertionSort]
      omega
    have hybot : (((List.insertionSort byY holes).drop 2).take 2).length = 2 := by
      simp [List.length_take, List.length_drop, List.length_insertionSort]
      omega
    obtain ⟨tl, tr, htop⟩ := List.length_eq_two.mp
      (by rw [List.length_insertionSort, hytop] :
        (List.insertionSort byX ((List.insertionSort byY holes).take 2)).length = 2)
    obtain ⟨bl, br, hbot⟩ := List.length_eq_two.mp
      (by rw [List.length_insertionSort, hybot] :
        (List.insertionSort byX (((List.insertionSort byY holes).drop 2).take 2)).length = 2)
    refine ⟨tl, tr, bl, br, htop, hbot, ?_⟩
    unfold calculate_seam_lengths
    rw [if_neg (by omega : ¬ holes.length < 4)]
    simp only [htop, hbot]
  · have hred : calculate_seam_lengths exGrid =
        (distance (0, 0) (100, 0) - (((30 : ℚ) : ℝ) / 2 + ((40 : ℚ) : ℝ) / 2),
         distance (0, 100) (100, 100) - (((30 : ℚ) : ℝ) / 2 + ((40 : ℚ) : ℝ) / 2),
         distance (0, 0) (0, 100) - (((30 : ℚ) : ℝ) / 2 + ((30 : ℚ) : ℝ) / 2),
         distance (100, 0) (100, 100) - (((40 : ℚ) : ℝ) / 2 + ((40 : ℚ) : ℝ) / 2)) := rfl
    rw [hred, distance_100_horiz, distance_100_horiz', distance_100_vert 0, distance_100_vert 100]
    norm_num
  · have hred : (calculate_seam_lengths exOverlap).1 =
        distance (0, 0) (100, 0) - (((110 : ℚ) : ℝ) / 2 + ((110 : ℚ) : ℝ) / 2) := rfl
    rw [hred, distance_100_horiz]
    norm_num
  · have hred : (calculate_seam_lengths exOverlap).1 =
        distance (0, 0) (100, 0) - (((110 : ℚ) : ℝ) / 2 + ((110 : ℚ) : ℝ) / 2) := rfl
    rw [hred, distance_100_horiz]
    norm_num

/-- Witness for the universally quantified part of C4 at the concrete grid. -/
theorem seam_length_formula_witness :
    4 ≤ exGrid.length ∧
    ∃ tl tr bl br : Hole,
      List.insertionSort byX ((List.insertionSort byY exGrid).take 2) = [tl, tr] ∧
      List.insertionSort byX (((List.insertionSort byY exGrid).drop 2).take 2) = [bl, br] ∧
      calculate_seam_lengths exGrid =
        (distance tl.center tr.center - ((tl.width : ℝ) / 2 + (tr.width : ℝ) / 2),
         distance bl.center br.center - ((bl.width : ℝ) / 2 + (br.width : ℝ) / 2),
         distance tl.center bl.center - ((tl.width : ℝ) / 2 + (bl.width : ℝ) / 2),
         distance tr.center br.center - ((tr.width : ℝ) / 2 + (br.width : ℝ) / 2)) :=
  ⟨by decide, seam_length_formula.1 exGrid (by decide)⟩

/-! ### C8: translation invariance of seam lengths -/

lemma distance_translate (dx dy : ℤ) (a b : Hole) :
    distance (translateHole dx dy a).center (translateHole dx dy b).center
      = distance a.center b.center := by
  unfold distance translateHole
  have h1 : b.center.1 + dx - (a.center.1 + dx) = b.center.1 - a.center.1 := by ring
  have h2 : b.center.2 + dy - (a.center.2 + dy) = b.center.2 - a.center.2 := by ring
  simp only [h1, h2]

lemma insertionSort_byY_map (dx dy : ℤ) (l : List Hole) :
    List.insertionSort byY (l.map (translateHole dx dy))
      = (List.insertionSort byY l).map (translateHole dx dy) :=
  (List.map_insertionSort byY byY (translateHole dx dy) l
    (fun a _ b _ => by simp [byY, translateHole])).symm

lemma insertionSort_byX_map (dx dy : ℤ) (l : List Hole) :
    List.insertionSort byX (l.map (translateHole dx dy))
      = (List.insertionSort byX l).map (translateHole dx dy) :=
  (List.map_insertionSort byX byX (translateHole dx dy) l
    (fun a _ b _ => by simp [byX, translateHole])).symm

/-- C8: `calculate_seam_lengths` is translation-invariant — translating every
hole center by the same offset vector `(dx, dy)` leaves all four returned seam
lengths unchanged. -/
theorem seam_lengths_translation_invariant (holes : List Hole) (dx dy : ℤ) :
    calculate_seam_lengths (holes.map (translateHole dx dy))
      = calculate_seam_lengths holes := by
  by_cases h4 : holes.length < 4
  · rw [calculate_seam_lengths_short _ (by simpa using h4),
      calculate_seam_lengths_short _ h4]
  · have h4' : ¬ (holes.map (translateHole dx dy)).length < 4 := by simpa using h4
    have hytop : ((List.insertionSort byY holes).take 2).length = 2 := by
      simp [List.length_take, List.length_insertionSort]
      omega
    have hybot : (((List.insertionSort byY holes).drop 2).take 2).length = 2 := by
      simp [List.length_take, List.length_drop, List.length_insertionSort]
      omega
    obtain ⟨tl, tr, htop⟩ := List.length_eq_two.mp
      (by rw [List.length_insertionSort, hytop] :
        (List.insertionSort byX ((List.insertionSort byY holes).take 2)).length = 2)
    obtain ⟨bl, br, hbot⟩ := List.length_eq_two.mp
      (by rw [List.length_insertionSort, hybot] :
        (List.insertionSort byX (((List.insertionSort byY holes).drop 2).take 2)).length = 2)
    have htop' : List.insertionSort byX
        ((List.insertionSort byY (holes.map (translateHole dx dy))).take 2)
        = [translateHole dx dy tl, translateHole dx dy tr] := by
      rw [insertionSort_byY_map, ← List.map_take, insertionSort_byX_map, htop]
      rfl
    have hbot' : List.insertionSort byX
        (((List.insertionSort byY (holes.map (translateHole dx dy))).drop 2).take 2)
        = [translateHole dx dy bl, translateHole dx dy br] := by
      rw [insertionSort_byY_map, ← List.map_drop, ← List.map_take, insertionSort_byX_map, hbot]
      rfl
    unfold calculate_seam_lengths
    rw [if_neg h4', if_neg h4]
    simp only [htop, hbot, htop', hbot']
    rw [distance_translate, distance_translate, distance_translate, distance_translate]
    rfl

/-! ### C6: CSV append -/

lemma append_singleton_getElem {α : Type _} (l : List α) (a : α) :
    (l ++ [a])[l.length]? = some a := by
  rw [List.getElem?_append_right le_rfl]
  simp

/-- C6: each CSV append leaves every previously written row unchanged and in
place, grows the row list by exactly one, gives the new row `Number` equal to
the previous row count plus 1 (preserving the rows-numbered-1..n invariant, so
`Number` strictly increases by 1 across rows), stores every measurement value
rounded to 2 decimal places (an integer number of hundredths, within 1/200 of
the original value), and stores 0.0 for a non-numeric value. -/
theorem csv_append_properties (csv : List CsvRow) (status ordernumber : String)
    (counter_val : ℕ) (date time : String) (measurements : List CsvValue) (user : String) :
    (save_to_csv csv status ordernumber counter_val date time measurements user).length
      = csv.length + 1 ∧
    (save_to_csv csv status ordernumber counter_val date time measurements user).take
        csv.length = csv ∧
    (∃ newRow : CsvRow,
      (save_to_csv csv status ordernumber counter_val date time measurements user)[csv.length]?
        = some newRow ∧
      newRow.number = csv.length + 1 ∧
      (∀ v ∈ newRow.values, ∃ z : ℤ, v = (z : ℚ) / 100) ∧
      (∀ (i : ℕ) (q : ℚ), measurements[i]? = some (CsvValue.num q) →
        newRow.values[i]? = some (round2 q) ∧ |round2 q - q| ≤ 1 / 200) ∧
      (∀ i : ℕ, measurements[i]? = some CsvValue.nonNumeric → newRow.values[i]? = some 0)) ∧
    ((∀ i (h : i < csv.length), (csv.get ⟨i, h⟩).number = i + 1) →
      ∀ i (h : i < (save_to_csv csv status ordernumber counter_val date time
          measurements user).length),
        ((save_to_csv csv status ordernumber counter_val date time measurements user).get
          ⟨i, h⟩).number = i + 1) := by
  have hround : ∀ q : ℚ, |round2 q - q| ≤ 1 / 200 := by
    intro q
    have habs := abs_sub_round (100 * q)
    have heq : round2 q - q = ((round (100 * q) : ℚ) - 100 * q) / 100 := by
      unfold round2
      ring
    calc |round2 q - q| = |(round (100 * q) : ℚ) - 100 * q| / 100 := by
          rw [heq, abs_div]
          norm_num
    _ = |100 * q - (round (100 * q) : ℚ)| / 100 := by rw [abs_sub_comm]
    _ ≤ (1 / 2) / 100 := by gcongr
    _ = 1 / 200 := by norm_num
  refine ⟨by simp [save_to_csv], by simp [save_to_csv, List.take_left], ?_, ?_⟩
  · simp only [save_to_csv]
    refine ⟨{ number := csv.length + 1, status := status, ordernumber := ordernumber,
              counter := counter_val, date := date, time := time,
              values := measurements.map storeValue, user := user },
            append_singleton_getElem _ _, rfl, ?_, ?_, ?_⟩
    · intro v hv
      obtain ⟨c, _, rfl⟩ := List.mem_map.mp hv
      cases c with
      | num q =>
        exact ⟨round (100 * q), by simp [storeValue, round2]⟩
      | nonNumeric =>
        exact ⟨0, by simp [storeValue]⟩
    · intro i q hi
      constructor
      · rw [List.getElem?_map, hi]
        rfl
      · exact hround q
    · intro i hi
      rw [List.getElem?_map, hi]
      rfl
  · intro hprev i h
    simp only [save_to_csv, List.length_append, List.length_singleton] at h
    by_cases hi : i < csv.length
    · have : (save_to_csv csv status ordernumber counter_val date time measurements user).get
          ⟨i, by simpa [save_to_csv] using h⟩
          = csv.get ⟨i, hi⟩ := by
        simp only [save_to_csv, List.get_eq_getElem]
        exact List.getElem_append_left hi
      rw [this]
      exact hprev i hi
    · have hieq : i = csv.length := by omega
      subst hieq
      simp only [save_to_csv, List.get_eq_getElem]
      rw [List.getElem_append_right (le_refl csv.length)]
      simp

/-- Witness for C6: appending to a one-row CSV with one numeric and one
non-numeric measurement value. -/
theorem csv_append_properties_witness :
    (save_to_csv [⟨1, "OK", "749274", 1, "2026-10-12", "11:59:00", [], "Bob"⟩]
        "NOK" "749274" 1 "2026-10-12" "12:00:00"
        [CsvValue.num (1237 / 1000), CsvValue.nonNumeric] "Bob").length
      = [(⟨1, "OK", "749274", 1, "2026-10-12", "11:59:00", [], "Bob"⟩ : CsvRow)].length + 1 ∧
    ∀ i (h : i < (save_to_csv [⟨1, "OK", "749274", 1, "2026-10-12", "11:59:00", [], "Bob"⟩]
        "NOK" "749274" 1 "2026-10-12" "12:00:00"
        [CsvValue.num (1237 / 1000), CsvValue.nonNumeric] "Bob").length),
      ((save_to_csv [⟨1, "OK", "749274", 1, "2026-10-12", "11:59:00", [], "Bob"⟩]
        "NOK" "749274" 1 "2026-10-12" "12:00:00"
        [CsvValue.num (1237 / 1000), CsvValue.nonNumeric] "Bob").get ⟨i, h⟩).number = i + 1 := by
  have h := csv_append_properties [⟨1, "OK", "749274", 1, "2026-10-12", "11:59:00", [], "Bob"⟩]
    "NOK" "749274" 1 "2026-10-12" "12:00:00"
    [CsvValue.num (1237 / 1000), CsvValue.nonNumeric] "Bob"
  exact ⟨h.1, h.2.2.2 (by decide)⟩

/-! ### C7: non-overwriting filename generation -/

/-- C7: `get_next_filename` is a pure function of the filesystem state — before
the base path exists it returns exactly the base name
`{status}_{orderNumber}_{partNumber}Count{counter}_CAM{camId}.jpg` (so two
calls before creating the file agree); once the base path exists the next call
returns the `_1`-suffixed name (when free); in general the result carries the
first available integer suffix, and is never an existing path. -/
theorem filename_nonoverwrite (fs : List String)
    (directory status order_number part_number : String) (counter cam_id : ℕ) :
    (basePath directory (baseStem status order_number part_number counter cam_id) ∉ fs →
      get_next_filename fs directory status order_number part_number counter cam_id
        = basePath directory (baseStem status order_number part_number counter cam_id)) ∧
    (basePath directory (baseStem status order_number part_number counter cam_id) ∈ fs →
      suffixedPath directory (baseStem status order_number part_number counter cam_id) 1 ∉ fs →
      get_next_filename fs directory status order_number part_number counter cam_id
        = suffixedPath directory (baseStem status order_number part_number counter cam_id) 1) ∧
    get_next_filename fs directory status order_number part_number counter cam_id ∉ fs ∧
    (basePath directory (baseStem status order_number part_number counter cam_id) ∈ fs →
      ∃ k : ℕ,
        get_next_filename fs directory status order_number part_number counter cam_id
          = suffixedPath directory (baseStem status order_number part_number counter cam_id)
              (k + 1) ∧
        suffixedPath directory (baseStem status order_number part_number counter cam_id)
            (k + 1) ∉ fs ∧
        ∀ j, 1 ≤ j → j < k + 1 →
          suffixedPath directory (baseStem status order_number part_number counter cam_id)
            j ∈ fs) := by
  refine ⟨?_, ?_, ?_, ?_⟩
  · intro h
    simp [get_next_filename, h]
  · intro hmem h1
    have hfind : Nat.find (exists_free_suffix directory
        (baseStem status order_number part_number counter cam_id) fs) = 0 :=
      (Nat.find_eq_zero _).mpr h1
    simp [get_next_filename, hmem, hfind]
  · by_cases hmem : basePath directory
        (baseStem status order_number part_number counter cam_id) ∈ fs
    · simpa [get_next_filename, hmem] using
        Nat.find_spec (exists_free_suffix directory
          (baseStem status order_number part_number counter cam_id) fs)
    · simpa [get_next_filename, hmem] using hmem
  · intro hmem
    refine ⟨Nat.find (exists_free_suffix directory
        (baseStem status order_number part_number counter cam_id) fs),
      by simp [get_next_filename, hmem],
      Nat.find_spec (exists_free_suffix directory
        (baseStem status order_number part_number counter cam_id) fs), ?_⟩
    intro j h1j hjk
    have hmin := Nat.find_min (exists_free_suffix directory
        (baseStem status order_number part_number counter cam_id) fs)
      (show j - 1 < Nat.find (exists_free_suffix directory
        (baseStem status order_number part_number counter cam_id) fs) by omega)
    have hj : j - 1 + 1 = j := by omega
    rw [hj] at hmin
    exact not_not.mp hmin

/-- Witness for C7: a one-file filesystem already holding the base path — the
next request returns the `_1`-suffixed path. -/
theorem filename_nonoverwrite_witness :
    basePath "out" (baseStem "OK" "ord" "part" 1 1)
        ∈ [basePath "out" (baseStem "OK" "ord" "part" 1 1)] ∧
    suffixedPath "out" (baseStem "OK" "ord" "part" 1 1) 1
        ∉ [basePath "out" (baseStem "OK" "ord" "part" 1 1)] ∧
    get_next_filename [basePath "out" (baseStem "OK" "ord" "part" 1 1)]
        "out" "OK" "ord" "part" 1 1
      = suffixedPath "out" (baseStem "OK" "ord" "part" 1 1) 1 := by
  have h := filename_nonoverwrite [basePath "out" (baseStem "OK" "ord" "part" 1 1)]
    "out" "OK" "ord" "part" 1 1
  exact ⟨by simp, by decide, h.2.1 (by simp) (by decide)⟩
